import Mathlib

/-!
Shallow embedding of the play-port lobby: the Supabase-backed `GameLobby`
component (rooms/players tables, host/join/leave/start-game handlers,
roster refresh and room-code generation) together with the relevant
column defaults of the SQL migration.
-/

namespace PlayPort

/-- A row of the `rooms` table (`interface Room` in the client). -/
structure Room where
  id : Nat
  code : String
  host_name : String
  max_players : Nat
  created_at : Nat
deriving DecidableEq

/-- A row of the `players` table (`interface Player` in the client,
plus the `joined_at` column used for ordering). -/
structure Player where
  id : Nat
  room_id : Nat
  name : String
  is_host : Bool
  joined_at : Nat
deriving DecidableEq

/-- The backing store: the two tables. -/
structure DB where
  rooms : List Room
  players : List Player
deriving DecidableEq

/-- The `currentView` state: `'landing' | 'room'`. -/
inductive View
  | landing
  | room
deriving DecidableEq

/-- Local client state of the lobby component (protocol-relevant fields:
`currentView`, `currentRoom`, `currentPlayer`, `players`). -/
structure ClientState where
  currentView : View
  currentRoom : Option Room
  currentPlayer : Option Player
  players : List Player
deriving DecidableEq

/-- Toasts reported by the handlers. -/
inductive Toast
  | nameRequired
  | codeRequired
  | roomCreated (code : String)
  | createFailed
  | roomNotFound
  | roomFull
  | joinedRoom (code : String)
  | joinFailed
  | leftRoom
  | notEnoughPlayers
deriving DecidableEq

/-- Result of a handler: new local state, new store contents, and the
toast reported (if any). -/
structure ActionResult where
  state : ClientState
  db : DB
  toast : Option Toast
deriving DecidableEq

/-- JS `String.prototype.toUpperCase` on one ASCII character:
lowercase letters `a`–`z` are shifted to `A`–`Z`, all else unchanged. -/
def jsCharToUpper (c : Char) : Char :=
  if 97 ≤ c.toNat ∧ c.toNat ≤ 122 then Char.ofNat (c.toNat - 32) else c

/-- JS `s.toUpperCase()`. -/
def jsToUpper (s : String) : String :=
  ⟨s.data.map jsCharToUpper⟩

/-- Whitespace characters stripped by JS `String.prototype.trim`
(ASCII range). -/
def jsIsWS (c : Char) : Bool :=
  c = ' ' || c = '\t' || c = '\n' || c = '\r' || c = '\x0b' || c = '\x0c'

/-- JS `s.trim()`: strip leading and trailing whitespace. -/
def jsTrim (s : String) : String :=
  ⟨((s.data.dropWhile jsIsWS).reverse.dropWhile jsIsWS).reverse⟩

/-- Rows of the `rooms` table whose `code` column equals `c`
(the `.eq('code', c)` filter). -/
def roomsWithCode (db : DB) (c : String) : List Room :=
  db.rooms.filter (fun r => r.code = c)

/-- Supabase `.select().eq('code', c).single()`: succeeds exactly when
one row matches. -/
def findRoomByCode (db : DB) (c : String) : Option Room :=
  match roomsWithCode db c with
  | [r] => some r
  | _ => none

/-- Rows of the `players` table whose `room_id` equals `rid`
(the `.eq('room_id', rid)` filter). -/
def playersInRoom (db : DB) (rid : Nat) : List Player :=
  db.players.filter (fun p => p.room_id = rid)

/-- Rows of the `rooms` table whose `id` equals `rid`. -/
def roomsWithId (db : DB) (rid : Nat) : List Room :=
  db.rooms.filter (fun r => r.id = rid)

/-- Insert a row into `rooms`. -/
def insertRoom (db : DB) (r : Room) : DB :=
  { db with rooms := db.rooms ++ [r] }

/-- Insert a row into `players`. -/
def insertPlayer (db : DB) (p : Player) : DB :=
  { db with players := db.players ++ [p] }

/-- Store call `delete().eq('id', pid)` on the `players` table. -/
def deletePlayer (db : DB) (pid : Nat) : DB :=
  { db with players := db.players.filter (fun p => p.id ≠ pid) }

/-- Store call `delete().eq('id', rid)` on the `rooms` table; the schema's
`ON DELETE CASCADE` on `players.room_id` removes that room's players. -/
def deleteRoom (db : DB) (rid : Nat) : DB :=
  { rooms := db.rooms.filter (fun r => r.id ≠ rid),
    players := db.players.filter (fun p => p.room_id ≠ rid) }

/-- Storage default of `rooms.max_players`
(`max_players INTEGER NOT NULL DEFAULT 4` in the migration). -/
def roomsMaxPlayersDefault : Nat := 4

/-- Storage default of `players.is_host`
(`is_host BOOLEAN NOT NULL DEFAULT false` in the migration). -/
def playersIsHostDefault : Bool := false

/-- Digits used by JS `Number.prototype.toString(36)`. -/
def base36Chars : List Char :=
  "0123456789abcdefghijklmnopqrstuvwxyz".data

/-- The base-36 digit character for digit value `d`. -/
def digitChar (d : Nat) : Char :=
  base36Chars.getD d '0'

/-- JS `r.toString(36)` for a draw `r` of `Math.random()` (so `0 ≤ r < 1`),
represented by the finite list `ds` of base-36 fractional digits that JS
prints: the result is `"0"` when there are no fractional digits (`r = 0`)
and `"0." ++ digits` otherwise. -/
def jsNumToString36 (ds : List Nat) : String :=
  if ds = [] then "0" else ⟨'0' :: '.' :: ds.map digitChar⟩

/-- JS `s.substring(a, b)` for `a ≤ b`. -/
def jsSubstring (s : String) (a b : Nat) : String :=
  ⟨(s.data.drop a).take (b - a)⟩

/-- The `generateRoomCode` helper: `Math.random().toString(36).substring(2, 8).toUpperCase()`,
as a function of the printed fractional digits of the random draw. -/
def generateRoomCode (ds : List Nat) : String :=
  jsToUpper (jsSubstring (jsNumToString36 ds) 2 8)

/-- Characters allowed in a room code: decimal digits and uppercase
letters (uppercase base-36 digits). -/
def isUpperBase36 (c : Char) : Bool :=
  ('0' ≤ c && c ≤ '9') || ('A' ≤ c && c ≤ 'Z')

/-- The `hostRoom` handler. Inputs besides the current local state and store:
the entered player name, the generated room code, the fresh row ids and
timestamp the store would assign, and two flags giving the fate of the
two awaited store calls (a call that the network drops fails regardless
of the data). The room insert succeeds when its call goes through and
the code does not collide with an existing room's code (`code` is
`UNIQUE`); the player insert succeeds when its call goes through. On the
first failure the handler throws to the catch block: the error toast is
shown and the local state is left as it was. -/
def hostRoom (st : ClientState) (db : DB) (name code : String)
    (rid pid now : Nat) (roomCallOk playerCallOk : Bool) : ActionResult :=
  if jsTrim name = "" then
    ⟨st, db, some Toast.nameRequired⟩
  else if roomCallOk && decide (roomsWithCode db code = []) then
    let roomRow : Room := ⟨rid, code, name, 5, now⟩
    let db1 := insertRoom db roomRow
    if playerCallOk then
      let playerRow : Player := ⟨pid, rid, name, true, now⟩
      ⟨{ st with currentRoom := some roomRow, currentPlayer := some playerRow,
                 currentView := View.room },
       insertPlayer db1 playerRow, some (Toast.roomCreated code)⟩
    else
      ⟨st, db1, some Toast.createFailed⟩
  else
    ⟨st, db, some Toast.createFailed⟩

/-- The `joinRoom` handler. Besides the local state, store, entered name and
code, it takes the fresh player id and timestamp and three flags for the
fates of the three awaited store calls (room lookup, player-list query,
player insert). A failed lookup call or a lookup not matching exactly
one row reports "Room not found"; a failed list call throws to the catch
block; a full room reports "Room full"; otherwise the player row is
inserted and the client enters the room. -/
def joinRoom (st : ClientState) (db : DB) (name code : String)
    (pid now : Nat) (findCallOk listCallOk insCallOk : Bool) : ActionResult :=
  if jsTrim name = "" then
    ⟨st, db, some Toast.nameRequired⟩
  else if jsTrim code = "" then
    ⟨st, db, some Toast.codeRequired⟩
  else
    match (if findCallOk then findRoomByCode db (jsToUpper code) else none) with
    | none => ⟨st, db, some Toast.roomNotFound⟩
    | some roomData =>
      if !listCallOk then
        ⟨st, db, some Toast.joinFailed⟩
      else if roomData.max_players ≤ (playersInRoom db roomData.id).length then
        ⟨st, db, some Toast.roomFull⟩
      else if insCallOk then
        let playerRow : Player := ⟨pid, roomData.id, name, false, now⟩
        ⟨{ st with currentRoom := some roomData, currentPlayer := some playerRow,
                   currentView := View.room },
         insertPlayer db playerRow, some (Toast.joinedRoom (jsToUpper code))⟩
      else
        ⟨st, db, some Toast.joinFailed⟩

/-- The local state every leave resets to: back to `Landing` with no
room, no player and an empty roster. -/
def landingState : ClientState :=
  ⟨View.landing, none, none, []⟩

/-- The `leaveRoom` handler: a no-op without a current player and room;
otherwise it deletes the player's row, additionally deletes the room
(cascading) when the player is the host, and resets the local state to
landing. The handler never inspects the delete results, so the local
reset happens unconditionally. -/
def leaveRoom (st : ClientState) (db : DB) : ActionResult :=
  match st.currentPlayer, st.currentRoom with
  | some p, some r =>
    let db1 := deletePlayer db p.id
    let db2 := if p.is_host then deleteRoom db1 r.id else db1
    ⟨landingState, db2, some Toast.leftRoom⟩
  | _, _ => ⟨st, db, none⟩

/-- Whether the local client may start the game: a current room exists
and the current player is flagged host
(`!currentRoom || !currentPlayer?.is_host` guard, negated). -/
def isHostLocal (st : ClientState) : Bool :=
  st.currentRoom.isSome && (st.currentPlayer.map (fun p => p.is_host)).getD false

/-- Outcome of the `startGame` handler. -/
inductive StartResult
  | noop
  | notEnough
  | navigate
deriving DecidableEq

/-- The `startGame` handler: a no-op unless a room is current and the local
player is host; with fewer than 2 local roster entries it reports "Not
enough players"; otherwise it navigates to `/game`. -/
def startGame (st : ClientState) : StartResult :=
  if isHostLocal st then
    if st.players.length < 2 then StartResult.notEnough else StartResult.navigate
  else
    StartResult.noop

/-- The roster-short hint rendered on the Start Game button:
`(Need {2 - players.length} more)`, shown exactly when a room is current
and the roster has fewer than 2 entries. -/
def needMore (st : ClientState) : Option Nat :=
  if st.currentRoom.isSome && st.players.length < 2 then
    some (2 - st.players.length)
  else
    none

/-- Ordering of the roster query: `order('joined_at', ascending)`. -/
def joinedLe (a b : Player) : Prop :=
  a.joined_at ≤ b.joined_at

instance : DecidableRel joinedLe := fun a b => Nat.decLe a.joined_at b.joined_at

/-- The `fetchPlayers` store query: the players of room `rid` ordered
ascending by `joined_at`. -/
def fetchPlayers (db : DB) (rid : Nat) : List Player :=
  (playersInRoom db rid).insertionSort joinedLe

/-- Roster refresh as run on every player-table change event: when a
room is current and the query succeeds, replace the local roster with
the freshly ordered list; otherwise leave the state alone. -/
def refreshPlayers (st : ClientState) (db : DB) (queryOk : Bool) : ClientState :=
  match st.currentRoom with
  | none => st
  | some r =>
    if queryOk then { st with players := fetchPlayers db r.id } else st

instance : IsTotal Player joinedLe :=
  ⟨fun a b => Nat.le_total a.joined_at b.joined_at⟩

instance : IsTrans Player joinedLe :=
  ⟨fun _ _ _ => Nat.le_trans⟩

theorem data_mkString (l : List Char) : (⟨l⟩ : String).data = l := rfl

theorem char_toNat_ofNat_valid (n : Nat) (h : n.isValidChar) :
    (Char.ofNat n).toNat = n := by
  simp [Char.ofNat, h, Char.ofNatAux, Char.toNat, UInt32.toNat]

theorem jsCharToUpper_toNat (c : Char) (h1 : 97 ≤ c.toNat) (h2 : c.toNat ≤ 122) :
    (jsCharToUpper c).toNat = c.toNat - 32 := by
  rw [jsCharToUpper, if_pos ⟨h1, h2⟩]
  exact char_toNat_ofNat_valid _ (Or.inl (by omega))

theorem jsCharToUpper_idem (c : Char) :
    jsCharToUpper (jsCharToUpper c) = jsCharToUpper c := by
  by_cases h : 97 ≤ c.toNat ∧ c.toNat ≤ 122
  · have hn : (jsCharToUpper c).toNat = c.toNat - 32 :=
      jsCharToUpper_toNat c h.1 h.2
    have hno : ¬ (97 ≤ (jsCharToUpper c).toNat ∧ (jsCharToUpper c).toNat ≤ 122) := by
      omega
    rw [jsCharToUpper, if_neg hno]
  · have e : jsCharToUpper c = c := by rw [jsCharToUpper, if_neg h]
    rw [e]
    exact e

theorem jsToUpper_idem (s : String) : jsToUpper (jsToUpper s) = jsToUpper s := by
  unfold jsToUpper
  apply congrArg String.mk
  rw [data_mkString, List.map_map]
  exact List.map_congr_left (fun a _ => by
    simp only [Function.comp_apply]
    exact jsCharToUpper_idem a)

theorem jsIsWS_toNat (c : Char) (h : jsIsWS c = true) : c.toNat ≤ 32 := by
  simp only [jsIsWS, Bool.or_eq_true, decide_eq_true_eq] at h
  rcases h with ((((h | h) | h) | h) | h) | h <;> subst h <;> decide

theorem jsIsWS_jsCharToUpper (c : Char) : jsIsWS (jsCharToUpper c) = jsIsWS c := by
  by_cases h : 97 ≤ c.toNat ∧ c.toNat ≤ 122
  · have hn : (jsCharToUpper c).toNat = c.toNat - 32 :=
      jsCharToUpper_toNat c h.1 h.2
    have h1 : jsIsWS (jsCharToUpper c) ≠ true := fun hw => by
      have := jsIsWS_toNat _ hw; omega
    have h2 : jsIsWS c ≠ true := fun hw => by
      have := jsIsWS_toNat _ hw; omega
    simp only [Bool.not_eq_true] at h1 h2
    rw [h1, h2]
  · have e : jsCharToUpper c = c := by rw [jsCharToUpper, if_neg h]
    rw [e]

theorem jsTrim_eq_empty (s : String) :
    jsTrim s = "" ↔ ∀ c ∈ s.data, jsIsWS c = true := by
  unfold jsTrim
  constructor
  · intro h c hc
    have hl : ((s.data.dropWhile jsIsWS).reverse.dropWhile jsIsWS).reverse = [] :=
      congrArg String.data h
    rw [List.reverse_eq_nil_iff, List.dropWhile_eq_nil_iff] at hl
    rw [← List.takeWhile_append_dropWhile jsIsWS s.data] at hc
    rcases List.mem_append.mp hc with hc | hc
    · exact List.mem_takeWhile_imp hc
    · exact hl c (List.mem_reverse.mpr hc)
  · intro h
    have h1 : s.data.dropWhile jsIsWS = [] :=
      List.dropWhile_eq_nil_iff.mpr (fun x hx => h x hx)
    rw [h1]
    rfl

theorem jsTrim_jsToUpper_eq_empty (s : String) :
    jsTrim (jsToUpper s) = "" ↔ jsTrim s = "" := by
  rw [jsTrim_eq_empty, jsTrim_eq_empty]
  constructor
  · intro h c hc
    have hm : jsCharToUpper c ∈ (jsToUpper s).data := by
      rw [jsToUpper, data_mkString]
      exact List.mem_map_of_mem _ hc
    have := h (jsCharToUpper c) hm
    rwa [jsIsWS_jsCharToUpper] at this
  · intro h c hc
    rw [jsToUpper, data_mkString] at hc
    rcases List.mem_map.mp hc with ⟨a, ha, rfl⟩
    rw [jsIsWS_jsCharToUpper]
    exact h a ha

/-- C1: a host action with a non-empty (non-whitespace) player name in
which both store inserts succeed appends exactly one Room row (capacity
5) and exactly one Player row with `is_host = true` linked to that room,
and the local client state becomes `InRoom`: view `room`, `currentRoom`
and `currentPlayer` set to the created rows. -/
theorem hostRoom_success (st : ClientState) (db : DB) (name code : String)
    (rid pid now : Nat) (hname : jsTrim name ≠ "")
    (hfresh : roomsWithCode db code = []) :
    hostRoom st db name code rid pid now true true =
      ⟨{ st with currentView := View.room,
                 currentRoom := some ⟨rid, code, name, 5, now⟩,
                 currentPlayer := some ⟨pid, rid, name, true, now⟩ },
       ⟨db.rooms ++ [⟨rid, code, name, 5, now⟩],
        db.players ++ [⟨pid, rid, name, true, now⟩]⟩,
       some (Toast.roomCreated code)⟩ := by
  simp [hostRoom, hname, hfresh, insertRoom, insertPlayer]

theorem hostRoom_success_witness :
    jsTrim "Alice" ≠ "" ∧
    hostRoom landingState ⟨[], []⟩ "Alice" "QQ" 1 2 0 true true =
      ⟨⟨View.room, some ⟨1, "QQ", "Alice", 5, 0⟩, some ⟨2, 1, "Alice", true, 0⟩, []⟩,
       ⟨[⟨1, "QQ", "Alice", 5, 0⟩], [⟨2, 1, "Alice", true, 0⟩]⟩,
       some (Toast.roomCreated "QQ")⟩ :=
  ⟨by decide, hostRoom_success landingState ⟨[], []⟩ "Alice" "QQ" 1 2 0
    (by decide) (by decide)⟩

/-- C8: joining is case-insensitive in the room code: for every state,
store and code string, the join handler run with the uppercased code
produces exactly the same result as run with the code itself, because
the lookup uppercases the code before comparison. -/
theorem joinRoom_code_case_insensitive (st : ClientState) (db : DB)
    (name code : String) (pid now : Nat)
    (findCallOk listCallOk insCallOk : Bool) :
    joinRoom st db name (jsToUpper code) pid now findCallOk listCallOk insCallOk =
      joinRoom st db name code pid now findCallOk listCallOk insCallOk := by
  unfold joinRoom
  rw [jsToUpper_idem]
  by_cases hn : jsTrim name = ""
  · simp [hn]
  · by_cases hc : jsTrim code = ""
    · have hc2 : jsTrim (jsToUpper code) = "" :=
        (jsTrim_jsToUpper_eq_empty code).mpr hc
      simp [hn, hc, hc2]
    · have hc2 : jsTrim (jsToUpper code) ≠ "" :=
        fun h => hc ((jsTrim_jsToUpper_eq_empty code).mp h)
      simp [hn, hc, hc2]

/-- C2: a join action whose room lookup succeeds but where the number
of existing Player rows of that room is at least the room's
`max_players` at check time is rejected with the "Room full" report,
inserts no Player row, and leaves both the store and the local client
state exactly as they were. -/
theorem joinRoom_full (st : ClientState) (db : DB) (name code : String)
    (pid now : Nat) (insCallOk : Bool) (room : Room)
    (hname : jsTrim name ≠ "") (hcode : jsTrim code ≠ "")
    (hfind : findRoomByCode db (jsToUpper code) = some room)
    (hfull : room.max_players ≤ (playersInRoom db room.id).length) :
    joinRoom st db name code pid now true true insCallOk =
      ⟨st, db, some Toast.roomFull⟩ := by
  simp [joinRoom, hname, hcode, hfind, hfull]

theorem joinRoom_full_witness :
    jsTrim "Bob" ≠ "" ∧
    joinRoom landingState ⟨[⟨1, "ABC123", "Alice", 1, 0⟩], [⟨1, 1, "Alice", true, 0⟩]⟩
        "Bob" "abc123" 2 1 true true true =
      ⟨landingState, ⟨[⟨1, "ABC123", "Alice", 1, 0⟩], [⟨1, 1, "Alice", true, 0⟩]⟩,
       some Toast.roomFull⟩ :=
  ⟨by decide,
   joinRoom_full landingState ⟨[⟨1, "ABC123", "Alice", 1, 0⟩], [⟨1, 1, "Alice", true, 0⟩]⟩
     "Bob" "abc123" 2 1 true ⟨1, "ABC123", "Alice", 1, 0⟩
     (by decide) (by decide) (by decide) (by decide)⟩

/-- C4: a join action with non-empty name and a non-empty code whose
uppercased form matches no existing room's code fails with the "Room
not found" report and has no side effect: the store and the local
client state are unchanged, whatever the fates of the store calls. -/
theorem joinRoom_notFound (st : ClientState) (db : DB) (name code : String)
    (pid now : Nat) (findCallOk listCallOk insCallOk : Bool)
    (hname : jsTrim name ≠ "") (hcode : jsTrim code ≠ "")
    (hnone : roomsWithCode db (jsToUpper code) = []) :
    joinRoom st db name code pid now findCallOk listCallOk insCallOk =
      ⟨st, db, some Toast.roomNotFound⟩ := by
  have hfind : findRoomByCode db (jsToUpper code) = none := by
    rw [findRoomByCode, hnone]
  cases findCallOk <;> simp [joinRoom, hname, hcode, hfind]

theorem joinRoom_notFound_witness :
    jsTrim "Bob" ≠ "" ∧
    joinRoom landingState ⟨[⟨1, "ABC123", "Alice", 5, 0⟩], []⟩
        "Bob" "zzz" 2 1 true true true =
      ⟨landingState, ⟨[⟨1, "ABC123", "Alice", 5, 0⟩], []⟩,
       some Toast.roomNotFound⟩ :=
  ⟨by decide,
   joinRoom_notFound landingState ⟨[⟨1, "ABC123", "Alice", 5, 0⟩], []⟩
     "Bob" "zzz" 2 1 true true true (by decide) (by decide) (by decide)⟩

/-- C3: a leave action by a player whose `is_host` flag is true deletes
the player's row and the room row, and the cascade removes every
remaining Player row of that room, leaving zero Room rows and zero
Player rows for that room; the leaving client's local state returns to
landing. -/
theorem leaveRoom_host (st : ClientState) (db : DB) (p : Player) (r : Room)
    (hp : st.currentPlayer = some p) (hr : st.currentRoom = some r)
    (hhost : p.is_host = true) :
    (leaveRoom st db).state = landingState ∧
    (leaveRoom st db).toast = some Toast.leftRoom ∧
    roomsWithId (leaveRoom st db).db r.id = [] ∧
    playersInRoom (leaveRoom st db).db r.id = [] ∧
    (leaveRoom st db).db.players.filter (fun q => q.id = p.id) = [] := by
  have hred : leaveRoom st db =
      ⟨landingState, deleteRoom (deletePlayer db p.id) r.id, some Toast.leftRoom⟩ := by
    simp [leaveRoom, hp, hr, hhost]
  rw [hred]
  refine ⟨rfl, rfl, ?_, ?_, ?_⟩
  · rw [roomsWithId]
    rw [List.filter_eq_nil_iff]
    intro a ha
    have hq := (List.mem_filter.mp ha).2
    simp only [decide_eq_true_eq] at hq ⊢
    exact hq
  · rw [playersInRoom]
    rw [List.filter_eq_nil_iff]
    intro a ha
    have hq := (List.mem_filter.mp ha).2
    simp only [decide_eq_true_eq] at hq ⊢
    exact hq
  · rw [List.filter_eq_nil_iff]
    intro a ha
    have hin := (List.mem_filter.mp ha).1
    have hq := (List.mem_filter.mp hin).2
    simp only [decide_eq_true_eq] at hq ⊢
    exact hq

theorem leaveRoom_host_witness :
    (⟨View.room, some ⟨1, "ABC123", "Alice", 5, 0⟩, some ⟨1, 1, "Alice", true, 0⟩,
        [⟨1, 1, "Alice", true, 0⟩]⟩ : ClientState).currentPlayer
      = some ⟨1, 1, "Alice", true, 0⟩ ∧
    (leaveRoom
        ⟨View.room, some ⟨1, "ABC123", "Alice", 5, 0⟩, some ⟨1, 1, "Alice", true, 0⟩,
          [⟨1, 1, "Alice", true, 0⟩]⟩
        ⟨[⟨1, "ABC123", "Alice", 5, 0⟩],
         [⟨1, 1, "Alice", true, 0⟩, ⟨2, 1, "Bob", false, 1⟩]⟩).state = landingState ∧
    playersInRoom (leaveRoom
        ⟨View.room, some ⟨1, "ABC123", "Alice", 5, 0⟩, some ⟨1, 1, "Alice", true, 0⟩,
          [⟨1, 1, "Alice", true, 0⟩]⟩
        ⟨[⟨1, "ABC123", "Alice", 5, 0⟩],
         [⟨1, 1, "Alice", true, 0⟩, ⟨2, 1, "Bob", false, 1⟩]⟩).db 1 = [] :=
  ⟨rfl,
   (leaveRoom_host _ _ ⟨1, 1, "Alice", true, 0⟩ ⟨1, "ABC123", "Alice", 5, 0⟩
      rfl rfl rfl).1,
   (leaveRoom_host _ _ ⟨1, 1, "Alice", true, 0⟩ ⟨1, "ABC123", "Alice", 5, 0⟩
      rfl rfl rfl).2.2.2.1⟩

/-- C5: a leave action by a player whose `is_host` flag is false deletes
only that player's row: the rooms table is untouched, the players table
keeps exactly the rows with a different id (so every other Player row of
the room survives), and the leaving client's local state returns to
landing. -/
theorem leaveRoom_nonhost (st : ClientState) (db : DB) (p : Player) (r : Room)
    (hp : st.currentPlayer = some p) (hr : st.currentRoom = some r)
    (hhost : p.is_host = false) :
    (leaveRoom st db).state = landingState ∧
    (leaveRoom st db).toast = some Toast.leftRoom ∧
    (leaveRoom st db).db.rooms = db.rooms ∧
    (leaveRoom st db).db.players = db.players.filter (fun q => q.id ≠ p.id) ∧
    (∀ q ∈ db.players, q.id ≠ p.id → q ∈ (leaveRoom st db).db.players) := by
  have hred : leaveRoom st db =
      ⟨landingState, deletePlayer db p.id, some Toast.leftRoom⟩ := by
    simp [leaveRoom, hp, hr, hhost]
  rw [hred]
  refine ⟨rfl, rfl, rfl, rfl, ?_⟩
  intro q hq hne
  show q ∈ (deletePlayer db p.id).players
  rw [deletePlayer]
  rw [List.mem_filter]
  exact ⟨hq, by simpa using hne⟩

theorem leaveRoom_nonhost_witness :
    (leaveRoom
        ⟨View.room, some ⟨1, "ABC123", "Alice", 5, 0⟩, some ⟨2, 1, "Bob", false, 1⟩,
          []⟩
        ⟨[⟨1, "ABC123", "Alice", 5, 0⟩],
         [⟨1, 1, "Alice", true, 0⟩, ⟨2, 1, "Bob", false, 1⟩]⟩).state = landingState ∧
    (leaveRoom
        ⟨View.room, some ⟨1, "ABC123", "Alice", 5, 0⟩, some ⟨2, 1, "Bob", false, 1⟩,
          []⟩
        ⟨[⟨1, "ABC123", "Alice", 5, 0⟩],
         [⟨1, 1, "Alice", true, 0⟩, ⟨2, 1, "Bob", false, 1⟩]⟩).db.rooms
      = [⟨1, "ABC123", "Alice", 5, 0⟩] :=
  ⟨(leaveRoom_nonhost _ _ ⟨2, 1, "Bob", false, 1⟩ ⟨1, "ABC123", "Alice", 5, 0⟩
      rfl rfl rfl).1,
   (leaveRoom_nonhost _ _ ⟨2, 1, "Bob", false, 1⟩ ⟨1, "ABC123", "Alice", 5, 0⟩
      rfl rfl rfl).2.2.1⟩

/-- C6: start game navigates exactly when invoked with a current room,
a host current player and a local roster of size at least 2; with a
roster below 2 (room present, host) it does not navigate and the lobby
reports that 2 minus the roster size more players are needed; without a
host current player or a current room it is a no-op. -/
theorem startGame_spec (st : ClientState) :
    (startGame st = StartResult.navigate ↔
      isHostLocal st = true ∧ 2 ≤ st.players.length) ∧
    (isHostLocal st = true → st.players.length < 2 →
      startGame st = StartResult.notEnough ∧
        needMore st = some (2 - st.players.length)) ∧
    (isHostLocal st = false → startGame st = StartResult.noop) := by
  refine ⟨?_, ?_, ?_⟩
  · constructor
    · intro h
      by_cases hh : isHostLocal st = true
      · refine ⟨hh, ?_⟩
        by_contra hlen
        rw [startGame, if_pos hh, if_pos (by omega)] at h
        exact StartResult.noConfusion h
      · rw [startGame, if_neg hh] at h
        exact absurd h (by simp)
    · rintro ⟨hh, hlen⟩
      rw [startGame, if_pos hh, if_neg (by omega)]
  · intro hh hlen
    have hroom : st.currentRoom.isSome = true := by
      rw [isHostLocal, Bool.and_eq_true] at hh
      exact hh.1
    constructor
    · rw [startGame, if_pos hh, if_pos hlen]
    · rw [needMore, if_pos (by rw [hroom]; simpa using hlen)]
  · intro hh
    rw [startGame, if_neg (by simp [hh])]

theorem startGame_spec_witness :
    startGame ⟨View.room, some ⟨1, "ABC123", "Alice", 5, 0⟩,
        some ⟨1, 1, "Alice", true, 0⟩, [⟨1, 1, "Alice", true, 0⟩]⟩
      = StartResult.notEnough ∧
    needMore ⟨View.room, some ⟨1, "ABC123", "Alice", 5, 0⟩,
        some ⟨1, 1, "Alice", true, 0⟩, [⟨1, 1, "Alice", true, 0⟩]⟩ = some 1 :=
  (startGame_spec _).2.1 (by decide) (by decide)

/-- C7: a successful roster refresh for the active room replaces the
local roster with exactly the store's Player rows of that room, as a
list that is a permutation of those rows and is sorted ascending by
`joined_at`; so after any delivery order of change events a successful
refresh leaves the displayed roster non-decreasing by join time. -/
theorem refreshPlayers_ordered (st : ClientState) (db : DB) (r : Room)
    (hr : st.currentRoom = some r) :
    (refreshPlayers st db true).players = fetchPlayers db r.id ∧
    ((refreshPlayers st db true).players).Perm (playersInRoom db r.id) ∧
    ((refreshPlayers st db true).players).Sorted joinedLe := by
  have h1 : (refreshPlayers st db true).players = fetchPlayers db r.id := by
    simp [refreshPlayers, hr]
  refine ⟨h1, ?_, ?_⟩
  · rw [h1, fetchPlayers]
    exact List.perm_insertionSort joinedLe _
  · rw [h1, fetchPlayers]
    exact List.sorted_insertionSort joinedLe _

theorem refreshPlayers_ordered_witness :
    (refreshPlayers ⟨View.room, some ⟨1, "R", "A", 5, 0⟩, none, []⟩
        ⟨[], [⟨2, 1, "b", false, 5⟩, ⟨3, 1, "c", false, 2⟩]⟩ true).players
      = fetchPlayers ⟨[], [⟨2, 1, "b", false, 5⟩, ⟨3, 1, "c", false, 2⟩]⟩ 1 ∧
    ((refreshPlayers ⟨View.room, some ⟨1, "R", "A", 5, 0⟩, none, []⟩
        ⟨[], [⟨2, 1, "b", false, 5⟩, ⟨3, 1, "c", false, 2⟩]⟩ true).players).Sorted
      joinedLe :=
  ⟨(refreshPlayers_ordered _ _ ⟨1, "R", "A", 5, 0⟩ rfl).1,
   (refreshPlayers_ordered _ _ ⟨1, "R", "A", 5, 0⟩ rfl).2.2⟩

/-- C9: the storage-level default of `rooms.max_players` is 4, while
every room row the client's host action creates (any row of the
resulting store that was not already there) has `max_players = 5`. -/
theorem maxPlayers_default_vs_client (st : ClientState) (db : DB)
    (name code : String) (rid pid now : Nat) (roomCallOk playerCallOk : Bool) :
    roomsMaxPlayersDefault = 4 ∧
    ∀ r ∈ (hostRoom st db name code rid pid now roomCallOk playerCallOk).db.rooms,
      r ∈ db.rooms ∨ r.max_players = 5 := by
  refine ⟨rfl, ?_⟩
  intro r hr
  by_cases hn : jsTrim name = ""
  · rw [hostRoom, if_pos hn] at hr
    exact Or.inl hr
  · rw [hostRoom, if_neg hn] at hr
    by_cases hcond : (roomCallOk && decide (roomsWithCode db code = [])) = true
    · rw [if_pos hcond] at hr
      by_cases hpk : playerCallOk = true
      · rw [if_pos hpk] at hr
        simp only [insertPlayer, insertRoom, List.mem_append, List.mem_singleton] at hr
        rcases hr with hr | hr
        · exact Or.inl hr
        · subst hr
          exact Or.inr rfl
      · rw [if_neg hpk] at hr
        simp only [insertRoom, List.mem_append, List.mem_singleton] at hr
        rcases hr with hr | hr
        · exact Or.inl hr
        · subst hr
          exact Or.inr rfl
    · rw [if_neg hcond] at hr
      exact Or.inl hr

theorem maxPlayers_default_vs_client_witness :
    roomsMaxPlayersDefault = 4 ∧
    ((⟨1, "QQ", "Alice", 5, 0⟩ : Room) ∈ ([] : List Room) ∨
      (⟨1, "QQ", "Alice", 5, 0⟩ : Room).max_players = 5) :=
  ⟨(maxPlayers_default_vs_client landingState ⟨[], []⟩ "Alice" "QQ" 1 2 0 true true).1,
   (maxPlayers_default_vs_client landingState ⟨[], []⟩ "Alice" "QQ" 1 2 0 true true).2
     ⟨1, "QQ", "Alice", 5, 0⟩ (by decide)⟩

/-- C10: for every random draw (given by its printed base-36 fractional
digits, each below 36) the generated room code has at most 6 characters,
each an uppercase base-36 digit (0-9 or A-Z); and the length is not
always 6: the draw 0 produces the empty code. -/
theorem generateRoomCode_spec (ds : List Nat) (h : ∀ d ∈ ds, d < 36) :
    (generateRoomCode ds).length ≤ 6 ∧
    (∀ c ∈ (generateRoomCode ds).data, isUpperBase36 c = true) ∧
    (generateRoomCode []).length < 6 := by
  have hchar : ∀ d : Nat, d < 36 → isUpperBase36 (jsCharToUpper (digitChar d)) = true := by
    decide
  refine ⟨?_, ?_, by decide⟩
  · cases ds with
    | nil => decide
    | cons a t =>
      show (jsToUpper (jsSubstring (jsNumToString36 (a :: t)) 2 8)).length ≤ 6
      rw [jsNumToString36, if_neg (by simp), jsSubstring, jsToUpper]
      simp only [String.length, data_mkString, List.map_map, List.length_map,
        List.drop_succ_cons, List.drop_zero, List.length_take]
      omega
  · intro c hc
    cases ds with
    | nil =>
      rw [show generateRoomCode [] = "" from by decide] at hc
      have hnil : ("" : String).data = [] := rfl
      rw [hnil] at hc
      exact absurd hc (List.not_mem_nil c)
    | cons a t =>
      rw [generateRoomCode, jsNumToString36, if_neg (by simp), jsSubstring,
        jsToUpper, data_mkString] at hc
      simp only [data_mkString, List.drop_succ_cons, List.drop_zero] at hc
      rcases List.mem_map.mp hc with ⟨x, hx, rfl⟩
      have hxm : x ∈ (a :: t).map digitChar := List.mem_of_mem_take hx
      rcases List.mem_map.mp hxm with ⟨d, hd, rfl⟩
      exact hchar d (h d hd)

theorem generateRoomCode_spec_witness :
    (generateRoomCode [10, 11, 12, 0, 1, 2, 35]).length ≤ 6 ∧
    (generateRoomCode []).length < 6 :=
  ⟨(generateRoomCode_spec [10, 11, 12, 0, 1, 2, 35] (by decide)).1,
   (generateRoomCode_spec [10, 11, 12, 0, 1, 2, 35] (by decide)).2.2⟩

end PlayPort
